import Mathlib

/-!
Shallow embedding of the Bitcask-style key/value store from `src/src/bitcask.rs`,
together with theorems settling the specification claims.

The source file is a pre-compilation sketch: several statements are not legal
Rust.  The embedding below translates each function statement by statement,
keeping literal Rust semantics wherever the statement compiles as written and
repairing to the statement's locally evident meaning (documented at each
definition) only where no literal semantics exists.  The concrete conventions:

* Machine integers `i32`/`i64` are modelled as `Int` (with explicit range
  guards where the source converts, e.g. `i32::try_from(value.len())?`);
  byte counts and buffer sizes are `Nat`; file contents are `List Nat`
  (octets).
* File-system effects are modelled functionally: a data file carries its byte
  contents, and each mutating operation additionally returns the list of
  `FileEvent`s (appends and fsyncs) it issued, in order.  I/O never fails in
  the model; the error type still carries the spec's error vocabulary so that
  claims about particular error kinds are statable.
* `self.file_lock.write()` / `.read()` lock acquisitions are atomicity
  devices; the functional model is sequential, so they vanish.
* The source's `?` on `HashMap::get` propagates key absence as an error
  (`NotFound`) — this is load-bearing (the tests expect `get` of an absent key
  to fail).  The source's `?` on `HashMap::remove` / `HashMap::insert`
  (in `delete` / `rotate`) is modelled as plain removal/insertion with no
  error: in Rust those calls return `Option` (not `Result`), `?` on them does
  not compile, and the comments on those functions ("Delete a (potentially)
  existing KV") show absence is not meant to fail.
* In `BitcaskDatafile::put` / `::delete` the source declares
  `let offset: i64 = 0;` and then, inside the lock block, writes
  `let offset = f.seek(SeekFrom::End(0))?;` — a *shadowing* `let`, which is
  legal Rust: the inner binding dies with the block and `Ok(offset)` returns
  the outer `0`.  The embedding keeps this literal behaviour.
* The body of `Bitcask::get` does not type-check in any reading (its outer
  `let value = 0;` is an integer where a `String` is required, and the inner
  call passes arguments the record reader does not take), so
  it is reconstructed from its evident intent: look the key up in the keymap,
  read the record at the entry's offset **from `self.current`** (the receiver
  written in the source — the archived `datafiles` map is never consulted),
  and return the value bytes read.
* The recovery machinery (`hintsfile_find_missing_files`, `hintsfile_import`)
  is embedded exactly as its bodies stand: the first only partitions the
  directory listing into the data-file and hints-file queues and returns
  `true`; the second is a no-op returning `true`.  Both invocations in
  `Bitcask::new` are commented out in the source, so `new` ignores the
  directory contents entirely.
* The on-disk record layout follows the source's struct declaration and its
  layout comments: fields `crc`, `key`, `op` (1 = PUT, 2 = DELETE),
  `value_size`, then the value bytes, with the total record length rounded up
  to a multiple of 4 by zero padding ("the total size of this record will be
  SILENTLY rounded up to the next multiple of 4"), little-endian fixed-width
  fields.  The source's own CRC expression (`crc32fast::hash(rec)`, marked
  `GROT`) is ill-formed; the CRC is modelled as CRC-32 (IEEE) of the record
  bytes after the CRC field, which no claim depends on.
-/

set_option linter.unusedVariables false

namespace ChromaBitcask

/-! Bitwise helpers and CRC-32 (kernel-reducible, fuel-based xor) -/

/-- Binary exclusive-or on `Nat`, structurally recursive on a fuel bound so
that closed instances reduce in the kernel.  64 bits of fuel covers every
value that appears (all are below `2^33`). -/
def bxorAux : Nat → Nat → Nat → Nat
  | 0, _, b => b
  | fuel + 1, a, b =>
    if a = 0 then b
    else if b = 0 then a
    else 2 * bxorAux fuel (a / 2) (b / 2) + (a + b) % 2

def bxor (a b : Nat) : Nat := bxorAux 64 a b

/-- One bit round of CRC-32 with the bit-reversed IEEE polynomial
`0xEDB88320 = 3988292384`. -/
def crcRounds : Nat → Nat → Nat
  | 0, c => c
  | n + 1, c => crcRounds n (if c % 2 = 1 then bxor (c / 2) 3988292384 else c / 2)

def crcByte (c b : Nat) : Nat := crcRounds 8 (bxor c b)

/-- CRC-32 (IEEE) of a byte list: initial value `0xFFFFFFFF`, final
complement. -/
def crc32 (bytes : List Nat) : Nat :=
  bxor (bytes.foldl crcByte 4294967295) 4294967295

/-! Little-endian field encoding -/

/-- Number of zero octets needed to round `n` up to a multiple of 4
("SILENTLY rounded up to the next multiple of 4" in the source). -/
def pad4 (n : Nat) : Nat := (4 - n % 4) % 4

/-- A 32-bit value as four little-endian octets. -/
def u32le (n : Nat) : List Nat :=
  [n % 256, n / 256 % 256, n / 65536 % 256, n / 16777216 % 256]

/-- An `i32` as four little-endian octets (two's complement). -/
def i32le (k : Int) : List Nat := u32le (k % 4294967296).toNat

/-- Little-endian value of a byte list. -/
def leNat : List Nat → Nat
  | [] => 0
  | b :: rest => b + 256 * leNat rest

/-- Reading four little-endian octets back as an `i32` (two's complement). -/
def decodeI32 (bytes : List Nat) : Int :=
  let n := leNat bytes
  if n < 2147483648 then (n : Int) else (n : Int) - 4294967296

/-! Error vocabulary

The source uses `io::Error` throughout; the spec's abstract error kinds are
included so that claims about particular kinds (`NotFound`, `OrphanHint`,
`ValueTooLarge`, ...) are statable.  The embedded code only ever produces
`io`, `notFound` and `corrupt`. -/

inductive BitcaskError where
  | io
  | notFound
  | corrupt
  | orphanHint
  | valueTooLarge
  | alreadyExists
  deriving Repr, DecidableEq

/-- Source `type BitcaskFileID = i32;` -/
abbrev BitcaskFileID := Int

/-- Observable file-system effects of an operation, in program order. -/
inductive FileEvent where
  | append (fid : BitcaskFileID) (bytes : List Nat)
  | sync (fid : BitcaskFileID)
  deriving Repr, DecidableEq

/-! Record codec (`BitcaskDatafileRecord`) -/

/-- Source `enum BitcaskDatafileRectype { PUT, DELETE }` — on-disk operation tag. -/
inductive BitcaskDatafileRectype where
  | PUT
  | DELETE
  deriving Repr, DecidableEq

/-- On-disk octet for the operation tag (`0x01` = PUT, `0x02` = DELETE). -/
def opByte : BitcaskDatafileRectype → Nat
  | .PUT => 1
  | .DELETE => 2

/-- The record bytes after the CRC field: key (4, LE), op (1),
`value_size` (4, LE), the value octets, then zero padding to a 4-octet
boundary of the whole record (whose header is 13 octets). -/
def recordBody (key : Int) (op : BitcaskDatafileRectype) (value_size : Nat)
    (value : List Nat) : List Nat :=
  i32le key ++ opByte op :: (u32le value_size ++ (value ++ List.replicate (pad4 (13 + value.length)) 0))

/-- Source `struct BitcaskDatafileRecord { crc, key, op, value_size, value }`.
The source's `value: [u8; 4096]` buffer is "shrunk-to-fit when on-disk"; the
in-memory model carries just the valid value octets. -/
structure BitcaskDatafileRecord where
  crc : Nat
  key : Int
  op : BitcaskDatafileRectype
  value_size : Nat
  value : List Nat
  deriving Repr, DecidableEq

/-- Source `BitcaskDatafileRecord::new(key, op, value_size, value)`: the CRC covers
every octet of the record after the CRC field, padding included. -/
def BitcaskDatafileRecord.new (key : Int) (op : BitcaskDatafileRectype)
    (value_size : Nat) (value : List Nat) : BitcaskDatafileRecord :=
  { crc := crc32 (recordBody key op value_size value)
    key := key
    op := op
    value_size := value_size
    value := value }

/-- The full on-disk encoding: CRC (4, LE) then the record body. -/
def encodeDatafileRecord (r : BitcaskDatafileRecord) : List Nat :=
  u32le r.crc ++ recordBody r.key r.op r.value_size r.value

/-- Decoding the record found at the head of `bytes`: fixed 13-octet header
(CRC, key, op, `value_size`), then `value_size` value octets.  Insufficient
bytes or an unknown op tag yield `corrupt`; the source performs no CRC
verification on read (`f.read(&rec)` alone), so neither does the decoder. -/
def decodeDatafileRecord (bytes : List Nat) :
    Except BitcaskError (Int × BitcaskDatafileRectype × Nat × List Nat) :=
  if bytes.length < 13 then .error .corrupt
  else
    let key := decodeI32 ((bytes.drop 4).take 4)
    let ob := leNat ((bytes.drop 8).take 1)
    let vsize := leNat ((bytes.drop 9).take 4)
    if bytes.length < 13 + vsize then .error .corrupt
    else
      let value := (bytes.drop 13).take vsize
      if ob = 1 then .ok (key, .PUT, vsize, value)
      else if ob = 2 then .ok (key, .DELETE, vsize, value)
      else .error .corrupt

/-! Data file (`BitcaskDatafile`) -/

/-- Source `struct BitcaskDatafile { name, ID, file_lock: RwLock<File> }`.
The `File` behind the lock is modelled by its byte contents. -/
structure BitcaskDatafile where
  name : String
  ID : BitcaskFileID
  contents : List Nat
  deriving Repr, DecidableEq

/-- Source `BitcaskDatafile::new(dirpath, ID)`: creates `<dirpath>/<ID+1>.data`
(note the source both names the file `ID+1` and stores `ID: ID + 1`);
`File::create` yields an empty file. -/
def BitcaskDatafile.new (dirpath : String) (ID : BitcaskFileID) : BitcaskDatafile :=
  { name := dirpath ++ "/" ++ toString (ID + 1) ++ ".data"
    ID := ID + 1
    contents := [] }

/-- Source `BitcaskDatafile::open(dirpath, ID)`: opens the existing file as-is. -/
def BitcaskDatafile.open (dirpath : String) (ID : BitcaskFileID)
    (contents : List Nat) : BitcaskDatafile :=
  { name := dirpath ++ "/" ++ toString ID ++ ".data"
    ID := ID
    contents := contents }

/-- Source `BitcaskDatafile::get(offset)`: seek to `offset` and read the record
there.  The source reads into a maximally sized buffer; the decode gives the
record's declared fields. -/
def BitcaskDatafile.get (df : BitcaskDatafile) (offset : Int) :
    Except BitcaskError (Int × BitcaskDatafileRectype × Nat × List Nat) :=
  decodeDatafileRecord (df.contents.drop offset.toNat)

/-- Source `BitcaskDatafile::put(key, value, flush)`.  Statement by statement:
build the PUT record (`i32::try_from(value.len())?` guards the length);
`let offset: i64 = 0;` establishes the binding that is eventually returned;
inside the lock block, `let offset = f.seek(SeekFrom::End(0))?` *shadows* it
(the seek result — the pre-append length — dies with the block) and the
record bytes are appended; if `flush`, `sync` runs (result discarded);
`Ok(offset)` returns the **outer** binding, i.e. `0`. -/
def BitcaskDatafile.put (df : BitcaskDatafile) (key : Int) (value : List Nat)
    (flush : Bool) :
    Except BitcaskError (BitcaskDatafile × List FileEvent × Int) :=
  if 2147483647 < value.length then .error .io
  else
    let r := BitcaskDatafileRecord.new key .PUT value.length value
    let offset : Int := 0
    let shadowedOffset : Int := (df.contents.length : Int)
    let bytes := encodeDatafileRecord r
    let events :=
      FileEvent.append df.ID bytes ::
        (if flush then [FileEvent.sync df.ID] else [])
    .ok ({ df with contents := df.contents ++ bytes }, events, offset)

/-- Source `BitcaskDatafile::delete(key, flush)`: identical shape to `put` with a
DELETE record of `value_size = 0` and an empty value; the same shadowing
makes it return offset `0`. -/
def BitcaskDatafile.delete (df : BitcaskDatafile) (key : Int) (flush : Bool) :
    Except BitcaskError (BitcaskDatafile × List FileEvent × Int) :=
  let r := BitcaskDatafileRecord.new key .DELETE 0 []
  let offset : Int := 0
  let shadowedOffset : Int := (df.contents.length : Int)
  let bytes := encodeDatafileRecord r
  let events :=
    FileEvent.append df.ID bytes ::
      (if flush then [FileEvent.sync df.ID] else [])
  .ok ({ df with contents := df.contents ++ bytes }, events, offset)

/-- Source `BitcaskDatafile::sync()`: `self.file.sync_all()?; Ok(true)` — flushes
the file, changes nothing. -/
def BitcaskDatafile.sync (df : BitcaskDatafile) : List FileEvent × Bool :=
  ([FileEvent.sync df.ID], true)

/-! Key directory (`BitcaskKeymapEntry` and the keymap) -/

/-- Source `struct BitcaskKeymapEntry { value_size, fileid, offset }`. -/
structure BitcaskKeymapEntry where
  value_size : Int
  fileid : BitcaskFileID
  offset : Int
  deriving Repr, DecidableEq

/-- The in-memory `HashMap<i32, BitcaskKeymapEntry>` is modelled as an
association list with unique keys. -/
abbrev Keymap := List (Int × BitcaskKeymapEntry)

def mapLookup (m : Keymap) (k : Int) : Option BitcaskKeymapEntry :=
  match m with
  | [] => none
  | (k', v) :: rest => if k' = k then some v else mapLookup rest k

def mapRemove (m : Keymap) (k : Int) : Keymap :=
  m.filter (fun p => p.1 ≠ k)

def mapInsert (m : Keymap) (k : Int) (v : BitcaskKeymapEntry) : Keymap :=
  (k, v) :: mapRemove m k

/-! Hints files (`BitcaskHintsfile`) -/

/-- Source `struct BitcaskHintsfileRecord { key, op, value_size, offset }`. -/
structure BitcaskHintsfileRecord where
  key : Int
  op : BitcaskDatafileRectype
  value_size : Int
  offset : Int
  deriving Repr, DecidableEq

/-- Source `BitcaskHintsfile::hintsfile_generate(datafile)`: the body is a stub —
apart from its comment block it only returns `Ok(true)`; no hints file is
written. -/
def hintsfile_generate (datafile : BitcaskDatafile) : Except BitcaskError Bool :=
  .ok true

/-- Source `BitcaskHintsfile::hintsfile_import(keymap, filename)`: the body returns
`Ok(true)` without touching the keymap (it takes the map by shared reference
and performs no insertion). -/
def hintsfile_import (keymap : Keymap) (filename : String) :
    Except BitcaskError Bool :=
  .ok true

/-- Source `BitcaskHintsfile::hintsfile_find_missing_files(cask, dirpath)`: the body
partitions the directory listing into the `dataQ` and `hintQ` queues (files
ending in `.data` resp. `.hints`, in listing order) and then returns
`Ok(true)`; no comparison of the two queues, no hints generation, and no
orphan check is performed. -/
def hintsfile_find_missing_files (dirlisting : List String) :
    Except BitcaskError Bool :=
  let dataQ := dirlisting.filter (fun f => f.endsWith ".data")
  let hintQ := dirlisting.filter (fun f => f.endsWith ".hints")
  .ok true

/-- Modelled from the spec: section 4.3 `import(key_dir, fid)` — what the
source's `hintsfile_import` is documented to do but does not ("Read all the
*.hints files into the in-memory keymap structure").  For each hint record in
file order: a PUT overwrites the keymap entry with `(fid, offset,
value_size)`; a DELETE removes the key if present.  Used only to exhibit the
divergence between `Bitcask::new` and the specified recovery. -/
def specHintsfileImport (keymap : Keymap) (fid : BitcaskFileID)
    (records : List BitcaskHintsfileRecord) : Keymap :=
  records.foldl
    (fun m r =>
      match r.op with
      | .PUT => mapInsert m r.key ⟨r.value_size, fid, r.offset⟩
      | .DELETE => mapRemove m r.key)
    keymap

/-! Engine (`Bitcask`) -/

/-- Source `pub struct Bitcask { keymap, current, datafiles, dirpath, maxID }`. -/
structure Bitcask where
  keymap : Keymap
  current : BitcaskDatafile
  datafiles : List (BitcaskFileID × BitcaskDatafile)
  dirpath : String
  maxID : BitcaskFileID
  deriving Repr, DecidableEq

/-- Source `Bitcask::new(dirpath)`: fresh empty keymap and archive, a fresh current
data file (`BitcaskDatafile::new` with the `Default` `maxID = 0`, so FID 1).
The `hintsfile_find_missing_files` / `hintsfile_import` invocations are
commented out in the source, so the directory contents (`dirlisting`,
the basenames `read_dir` would see) are never consulted and the keymap
starts empty whatever is on disk. -/
def Bitcask.new (dirpath : String) (dirlisting : List String) :
    Except BitcaskError Bitcask :=
  .ok
    { keymap := []
      current := BitcaskDatafile.new dirpath 0
      datafiles := []
      dirpath := dirpath
      maxID := 0 }

/-- Source `Bitcask::get(key)`: look the key up under the keymap read lock
(`map.get(key, entry)?` — absence propagates as `NotFound`), then read the
record at the entry's offset from **`self.current`** (the only file the
source ever reads; the `datafiles` archive is never consulted) and return the
value bytes. -/
def Bitcask.get (s : Bitcask) (key : Int) : Except BitcaskError (List Nat) :=
  match mapLookup s.keymap key with
  | none => .error .notFound
  | some entry =>
    match s.current.get entry.offset with
    | .error e => .error e
    | .ok (_, _, _, value) => .ok value

/-- Source `Bitcask::put(key, value)`: append a PUT record to the current data file
with `flush = true` and return `Ok(true)`.  The keymap is **not** updated —
the body contains no insertion. -/
def Bitcask.put (s : Bitcask) (key : Int) (value : List Nat) :
    Except BitcaskError (Bitcask × List FileEvent × Bool) :=
  match s.current.put key value true with
  | .error e => .error e
  | .ok (df, events, _offset) => .ok ({ s with current := df }, events, true)

/-- Source `Bitcask::delete(key)`: append a DELETE record to the current data file
with `flush = true`, then remove the key from the keymap, and return
`Ok(true)`. -/
def Bitcask.delete (s : Bitcask) (key : Int) :
    Except BitcaskError (Bitcask × List FileEvent × Bool) :=
  match s.current.delete key true with
  | .error e => .error e
  | .ok (df, events, _offset) =>
    .ok ({ s with current := df, keymap := mapRemove s.keymap key }, events, true)

/-- Source `Bitcask::list_keys()`: the keys of the keymap, in iteration order. -/
def Bitcask.list_keys (s : Bitcask) : List Int :=
  s.keymap.map (·.1)

/-- Source `Bitcask::sync()`: `self.current.sync()?` — flush the current data file;
nothing else changes. -/
def Bitcask.sync (s : Bitcask) :
    Except BitcaskError (Bitcask × List FileEvent × Bool) :=
  .ok (s, [FileEvent.sync s.current.ID], true)

/-- Source `Bitcask::rotate()`: insert the current data file into the `datafiles`
archive keyed by its FID, then create a new current file with
`BitcaskDatafile::new(dirpath, ID)` (the source's `ID` here is the engine's
`maxID`, which no statement in the file ever increments, so it is still its
`Default` value `0` and the replacement file gets FID `1`).  No hints file is
generated (the call is commented out). -/
def Bitcask.rotate (s : Bitcask) :
    Except BitcaskError (Bitcask × List FileEvent × Bool) :=
  let archived := (s.current.ID, s.current) :: s.datafiles.filter (fun p => p.1 ≠ s.current.ID)
  .ok
    ({ s with
        datafiles := archived
        current := BitcaskDatafile.new s.dirpath s.maxID },
      [], true)

/-- Source `Bitcask::shutdown()`: `self.sync(Self)?` then TODO stubs — the only
effect is the sync of the current file. -/
def Bitcask.shutdown (s : Bitcask) :
    Except BitcaskError (Bitcask × List FileEvent × Bool) :=
  Bitcask.sync s

/-! Abbreviations and concrete states used by the theorems -/

/-- The encoded PUT record `put(key, value)` appends. -/
def putRecordBytes (key : Int) (value : List Nat) : List Nat :=
  encodeDatafileRecord (BitcaskDatafileRecord.new key .PUT value.length value)

/-- The encoded DELETE tombstone `delete(key)` appends. -/
def deleteRecordBytes (key : Int) : List Nat :=
  encodeDatafileRecord (BitcaskDatafileRecord.new key .DELETE 0 [])

/-- The keymap `Bitcask::new` produces (junk default on the impossible
error branch). -/
def openKeymap (dirpath : String) (dirlisting : List String) : Keymap :=
  match Bitcask.new dirpath dirlisting with
  | .ok s => s.keymap
  | .error _ => []

/-- The offset `BitcaskDatafile::put` reports (junk `-1` on error). -/
def datafilePutRet (df : BitcaskDatafile) (key : Int) (value : List Nat)
    (flush : Bool) : Int :=
  match BitcaskDatafile.put df key value flush with
  | .ok (_, _, r) => r
  | .error _ => -1

/-- The engine state straight out of `Bitcask::new("db")` on an empty
directory. -/
def emptyCask : Bitcask :=
  { keymap := []
    current := BitcaskDatafile.new "db" 0
    datafiles := []
    dirpath := "db"
    maxID := 0 }

/-- State `emptyCask` after `put(14, "b")` (the `test_add_get` scenario). -/
def caskAfterPut : Bitcask :=
  match Bitcask.put emptyCask 14 [98] with
  | .ok (s, _, _) => s
  | .error _ => emptyCask

/-- A data file already holding 16 octets (one padded record's worth). -/
def df16 : BitcaskDatafile :=
  { name := "db/1.data", ID := 1, contents := List.replicate 16 0 }

/-- The encoded record of `put(1, "x")`. -/
def recBytesX : List Nat := encodeDatafileRecord (BitcaskDatafileRecord.new 1 .PUT 1 [120])

/-- Active file with FID 1 holding exactly the `put(1, "x")` record. -/
def df7 : BitcaskDatafile := { name := "db/1.data", ID := 1, contents := recBytesX }

/-- The engine state the spec prescribes after `put(1, "x")` on a fresh
store: the keymap holds `1 ↦ (value_size 1, fid 1, offset 0)` and the active
file holds the record. -/
def s7 : Bitcask :=
  { keymap := [(1, ⟨1, 1, 0⟩)]
    current := df7
    datafiles := []
    dirpath := "db"
    maxID := 0 }

/-- State `s7` after `rotate()`. -/
def s7rot : Bitcask :=
  match Bitcask.rotate s7 with
  | .ok (s, _, _) => s
  | .error _ => s7

/-! Helper lemmas -/

theorem leNat_u32le (n : Nat) (h : n < 4294967296) : leNat (u32le n) = n := by
  simp [u32le, leNat]; omega

theorem decodeI32_i32le (k : Int) (h1 : -2147483648 ≤ k) (h2 : k < 2147483648) :
    decodeI32 (i32le k) = k := by
  simp only [decodeI32, i32le]
  rw [leNat_u32le _ (by omega)]
  split <;> omega

theorem mapRemove_eq_of_lookup_none (m : Keymap) (k : Int)
    (h : mapLookup m k = none) : mapRemove m k = m := by
  induction m with
  | nil => rfl
  | cons p rest ih =>
    obtain ⟨q, v⟩ := p
    by_cases hk : q = k
    · simp [mapLookup, hk] at h
    · simp only [mapLookup, if_neg hk] at h
      simp [mapRemove, hk] at ih ⊢
      exact ih h

theorem encode_fields (r : BitcaskDatafileRecord) :
    encodeDatafileRecord r =
      u32le r.crc ++ (i32le r.key ++ (opByte r.op :: (u32le r.value_size ++
        (r.value ++ List.replicate (pad4 (13 + r.value.length)) 0)))) := by
  simp [encodeDatafileRecord, recordBody]

theorem encode_drop4 (r : BitcaskDatafileRecord) :
    (encodeDatafileRecord r).drop 4 =
      i32le r.key ++ (opByte r.op :: (u32le r.value_size ++
        (r.value ++ List.replicate (pad4 (13 + r.value.length)) 0))) := by
  rw [encode_fields]
  rw [show (4 : Nat) = (u32le r.crc).length from rfl, List.drop_left]

theorem encode_length (r : BitcaskDatafileRecord) :
    (encodeDatafileRecord r).length =
      13 + r.value.length + pad4 (13 + r.value.length) := by
  simp [encode_fields, u32le, i32le]
  omega

/-- Decoding an encoded record recovers its key, operation tag, declared
size and value octets (the source stores `value_size = value.len()` at every
call site). -/
theorem decodeDatafileRecord_encode (r : BitcaskDatafileRecord)
    (hk1 : -2147483648 ≤ r.key) (hk2 : r.key < 2147483648)
    (hvs : r.value_size = r.value.length)
    (hlen : r.value.length < 4294967296) :
    decodeDatafileRecord (encodeDatafileRecord r) =
      .ok (r.key, r.op, r.value.length, r.value) := by
  have hd4 := encode_drop4 r
  have hd8 : (encodeDatafileRecord r).drop 8 =
      opByte r.op :: (u32le r.value_size ++
        (r.value ++ List.replicate (pad4 (13 + r.value.length)) 0)) := by
    have : (encodeDatafileRecord r).drop 8 = ((encodeDatafileRecord r).drop 4).drop 4 := by
      rw [List.drop_drop]
    rw [this, hd4, show (4 : Nat) = (i32le r.key).length from rfl, List.drop_left]
  have hd9 : (encodeDatafileRecord r).drop 9 =
      u32le r.value_size ++ (r.value ++ List.replicate (pad4 (13 + r.value.length)) 0) := by
    have : (encodeDatafileRecord r).drop 9 = ((encodeDatafileRecord r).drop 8).drop 1 := by
      rw [List.drop_drop]
    rw [this, hd8, List.drop_one, List.tail_cons]
  have hd13 : (encodeDatafileRecord r).drop 13 =
      r.value ++ List.replicate (pad4 (13 + r.value.length)) 0 := by
    have : (encodeDatafileRecord r).drop 13 = ((encodeDatafileRecord r).drop 9).drop 4 := by
      rw [List.drop_drop]
    rw [this, hd9, show (4 : Nat) = (u32le r.value_size).length from rfl, List.drop_left]
  have hkey : decodeI32 (((encodeDatafileRecord r).drop 4).take 4) = r.key := by
    rw [hd4, show (4 : Nat) = (i32le r.key).length from rfl, List.take_left]
    exact decodeI32_i32le r.key hk1 hk2
  have hob : leNat (((encodeDatafileRecord r).drop 8).take 1) = opByte r.op := by
    rw [hd8]
    simp [leNat]
  have hvsize : leNat (((encodeDatafileRecord r).drop 9).take 4) = r.value.length := by
    rw [hd9, show (4 : Nat) = (u32le r.value_size).length from rfl, List.take_left]
    rw [hvs] at *
    exact leNat_u32le _ hlen
  have hval : ((encodeDatafileRecord r).drop 13).take r.value.length = r.value := by
    rw [hd13]
    exact List.take_left r.value _
  have hL := encode_length r
  rw [decodeDatafileRecord]
  rw [if_neg (by omega)]
  simp only [hkey, hob, hvsize]
  rw [if_neg (by omega)]
  simp only [hval]
  cases r.op <;> simp [opByte]

/-! Claim theorems -/

/-- C1: the claim says `get(k)` returns the value of the most recent
surviving `put(k, v)` and that a successful `put` inserts `(fid, offset,
value_size)` into the Key Directory.  The code does neither: `Bitcask::put`
appends the record but contains no keymap insertion, so on the fresh store
even the repository test `test_add_get` scenario — `put(14, "b")` then
`get(14)` — leaves the keymap empty and `get(14)` reports `NotFound`
instead of returning `"b"` (= `[98]`). -/
theorem put_then_get_notFound :
    (Bitcask.put emptyCask 14 [98]).isOk = true ∧
    caskAfterPut.keymap = [] ∧
    Bitcask.get caskAfterPut 14 = .error .notFound :=
  ⟨rfl, rfl, rfl⟩

/-- C2: the claim says `open` rebuilds the Key Directory by importing the
hint files in ascending FID order.  In the code the import machinery is a
no-op (the `hintsfile_find_missing_files` / `hintsfile_import` calls in
`Bitcask::new` are commented out and the import body returns `Ok(true)`
without touching the map), so `open` always yields an empty keymap,
whatever the directory holds — while importing even a single PUT hint
record per the spec yields a non-empty one. -/
theorem bitcask_open_ignores_hints (dirpath : String) (dirlisting : List String) :
    openKeymap dirpath dirlisting = [] ∧
    specHintsfileImport [] 1 [⟨14, .PUT, 1, 0⟩] ≠ [] :=
  ⟨rfl, by simp [specHintsfileImport, mapInsert, mapRemove]⟩

/-- C3 counterexample: the claim says `open` fails with `OrphanHint` when
the directory holds a hint file without its data file; on the listing
`["5.hints"]` (the spec scenario S6) `Bitcask::new` succeeds and the
missing-file scan reports plain success. -/
theorem orphanhint_dir_opens_ok :
    (Bitcask.new "db" ["5.hints"]).isOk = true ∧
    hintsfile_find_missing_files ["5.hints"] = .ok true :=
  ⟨rfl, rfl⟩

/-- C3 amended: `open(dir)` never fails with `OrphanHint`.
`hintsfile_find_missing_files` only collects the `.data` and `.hints`
basenames into two queues and returns success regardless of orphans, and
`Bitcask::new` does not even invoke it, succeeding on every directory
listing. -/
theorem open_never_fails_orphanHint (dirpath : String) (dirlisting : List String) :
    (Bitcask.new dirpath dirlisting).isOk = true ∧
    Bitcask.new dirpath dirlisting ≠ .error .orphanHint ∧
    hintsfile_find_missing_files dirlisting = .ok true := by
  refine ⟨rfl, ?_, rfl⟩
  intro h
  exact Except.noConfusion h

/-- C4: `delete(key)` always succeeds, always appends the encoded DELETE
record (whose `value_size` is 0) to the active data file whether or not the
key is present, and merely removes the key from the keymap — removing an
absent key leaves the keymap unchanged (a no-op, not an error). -/
theorem delete_always_appends_tombstone (s : Bitcask) (key : Int) :
    Bitcask.delete s key =
      .ok ({ s with
              current := { s.current with contents := s.current.contents ++ deleteRecordBytes key }
              keymap := mapRemove s.keymap key },
        [FileEvent.append s.current.ID (deleteRecordBytes key), FileEvent.sync s.current.ID], true) ∧
    (BitcaskDatafileRecord.new key .DELETE 0 []).value_size = 0 ∧
    (mapLookup s.keymap key = none → mapRemove s.keymap key = s.keymap) :=
  ⟨rfl, rfl, mapRemove_eq_of_lookup_none s.keymap key⟩

/-- C4 witness: deleting key 7, absent from the fresh store, still
succeeds and leaves the keymap as it was. -/
theorem delete_always_appends_tombstone_witness :
    mapLookup emptyCask.keymap 7 = none ∧
    mapRemove emptyCask.keymap 7 = emptyCask.keymap ∧
    (Bitcask.delete emptyCask 7).isOk = true := by
  refine ⟨rfl, (delete_always_appends_tombstone emptyCask 7).2.2 rfl, ?_⟩
  rw [(delete_always_appends_tombstone emptyCask 7).1]
  rfl

/-- C5: the claim says the append returns the pre-append file length as the
record offset.  On a data file already holding 16 octets, `put` reports
offset 0, not 16: the seek result captured inside the lock block is bound by
a shadowing `let` and dies with the block, so `Ok(offset)` returns the outer
binding initialised to 0. -/
theorem datafile_put_returns_zero_not_tail :
    datafilePutRet df16 2 [121] true = 0 ∧
    df16.contents.length = 16 ∧
    (BitcaskDatafile.put df16 2 [121] true).isOk = true :=
  ⟨rfl, by decide, rfl⟩

/-- C6 counterexample: the claim says `put` fails with `ValueTooLarge` for
every value longer than 4096 octets; a 4097-octet value is accepted. -/
theorem put_oversize_value_accepted :
    (Bitcask.put emptyCask 1 (List.replicate 4097 7)).isOk = true := by
  simp only [Bitcask.put, BitcaskDatafile.put, List.length_replicate]
  norm_num
  rfl

/-- C6 amended: `put(key, value)` never fails with `ValueTooLarge` — the
code has no 4096-octet payload check (and no such error kind), its only
length guard being the `i32` conversion of `value.len()` — and it succeeds
for every value of at most 4096 octets. -/
theorem put_never_valueTooLarge (s : Bitcask) (key : Int) (value : List Nat) :
    Bitcask.put s key value ≠ .error .valueTooLarge ∧
    (value.length ≤ 4096 → (Bitcask.put s key value).isOk = true) := by
  constructor
  · unfold Bitcask.put BitcaskDatafile.put
    by_cases h : 2147483647 < value.length <;> simp [h]
  · intro hv
    unfold Bitcask.put BitcaskDatafile.put
    have h : ¬ 2147483647 < value.length := by omega
    simp only [h, if_false]
    rfl

/-- C6 amended witness: a one-octet value is accepted. -/
theorem put_never_valueTooLarge_witness :
    ([98] : List Nat).length ≤ 4096 ∧ (Bitcask.put emptyCask 14 [98]).isOk = true :=
  ⟨by decide, (put_never_valueTooLarge emptyCask 14 [98]).2 (by decide)⟩

/-- C7: the claim says a `rotate` leaves every `get` result unchanged.  In
the state the spec prescribes after `put(1, "x")` — keymap entry
`1 ↦ (size 1, fid 1, offset 0)` and the record in the active file —
`get(1)` returns `"x"` (= `[120]`); after `rotate()` (which succeeds) the
same `get(1)` fails, because `Bitcask::get` always reads `self.current`
(now the fresh empty replacement file) and never consults the `datafiles`
archive the rotation moved the record into. -/
theorem rotate_makes_key_unreadable :
    Bitcask.get s7 1 = .ok [120] ∧
    (Bitcask.rotate s7).isOk = true ∧
    Bitcask.get s7rot 1 = .error .corrupt :=
  ⟨rfl, rfl, rfl⟩

/-- C8: every successful `put` and `delete` issues exactly one append of the
encoded record to the active data file followed by one fsync of that same
file, both before the call acknowledges with `Ok` — the engine invokes the
data-file write with `flush = true` on both paths. -/
theorem write_path_syncs_before_ack (s : Bitcask) (key : Int) (value : List Nat)
    (hlen : value.length ≤ 2147483647) :
    Bitcask.put s key value =
      .ok ({ s with
              current := { s.current with contents := s.current.contents ++ putRecordBytes key value } },
        [FileEvent.append s.current.ID (putRecordBytes key value), FileEvent.sync s.current.ID], true) ∧
    Bitcask.delete s key =
      .ok ({ s with
              current := { s.current with contents := s.current.contents ++ deleteRecordBytes key }
              keymap := mapRemove s.keymap key },
        [FileEvent.append s.current.ID (deleteRecordBytes key), FileEvent.sync s.current.ID], true) := by
  constructor
  · unfold Bitcask.put BitcaskDatafile.put
    have h : ¬ 2147483647 < value.length := by omega
    simp [h, putRecordBytes]
  · rfl

/-- C8 witness: the `put(14, "b")` call on the fresh store succeeds with
that trace. -/
theorem write_path_syncs_before_ack_witness :
    ([98] : List Nat).length ≤ 2147483647 ∧ (Bitcask.put emptyCask 14 [98]).isOk = true := by
  refine ⟨by decide, ?_⟩
  rw [(write_path_syncs_before_ack emptyCask 14 [98] (by decide)).1]
  rfl

/-- C9: encoding a data-file record (any `i32` key, either operation tag,
any value of at most 4096 octets) and decoding the encoded bytes yields the
original key, operation and value octets. -/
theorem record_roundtrip (key : Int) (op : BitcaskDatafileRectype) (value : List Nat)
    (hk1 : -2147483648 ≤ key) (hk2 : key < 2147483648) (hv : value.length ≤ 4096) :
    decodeDatafileRecord (encodeDatafileRecord (BitcaskDatafileRecord.new key op value.length value)) =
      .ok (key, op, value.length, value) :=
  decodeDatafileRecord_encode (BitcaskDatafileRecord.new key op value.length value)
    hk1 hk2 rfl (by show value.length < 4294967296; omega)

/-- C9 witness: round-trip of the record `PUT(14, "b")`. -/
theorem record_roundtrip_witness :
    decodeDatafileRecord (encodeDatafileRecord (BitcaskDatafileRecord.new 14 .PUT 1 [98])) =
      .ok (14, .PUT, 1, [98]) :=
  record_roundtrip 14 .PUT [98] (by decide) (by decide) (by decide)

/-- C10: in every engine state, `Bitcask::sync` returns the state unchanged
— keymap, immutable-file archive and all file contents intact — and its
effect trace is exactly one fsync of the current active data file, so no
other file is ever flushed. -/
theorem sync_flushes_only_active (s : Bitcask) :
    Bitcask.sync s = .ok (s, [FileEvent.sync s.current.ID], true) :=
  rfl

end ChromaBitcask
